import Mathlib

/-!
Shallow embedding of the "friendlyfy" human-readable formatting library.

Numbers in the source language are IEEE doubles; here they are modelled as
exact rationals plus the three non-finite values (NaN, +Infinity, -Infinity).
Every function below is translated from the JavaScript source file it names.
-/

namespace Friendlyfy

deriving instance DecidableEq for Except

/-- A JavaScript number: NaN, +Infinity, -Infinity, or a finite value
(modelled as an exact rational). -/
inductive JSNumber where
  | nan
  | inf
  | ninf
  | fin (q : ℚ)
deriving DecidableEq

/-- An extended integer as it flows through the duration loop of
src/unnamed/part_002 `formatDuration`: after `Math.floor` the remaining
value is an integer, +Infinity, or NaN (Infinity % n is NaN in JS). -/
inductive ENum where
  | nan
  | inf
  | num (i : ℤ)
deriving DecidableEq

/-- JS comparison `e < n` for an extended number against a finite integer:
false when `e` is NaN or +Infinity. -/
def eLt (e : ENum) (n : ℤ) : Bool :=
  match e with
  | .num i => i < n
  | .inf => false
  | .nan => false

/-- JS `Math.floor(e / n)` for positive integer `n`: floor division on
integers, `Infinity / n = Infinity` and `Math.floor(Infinity) = Infinity`,
NaN propagates. -/
def eFloorDiv (e : ENum) (n : ℤ) : ENum :=
  match e with
  | .num i => .num (i / n)
  | .inf => .inf
  | .nan => .nan

/-- JS remainder `e % n` for positive integer `n`: on non-negative integers
this is the ordinary remainder (`Int.emod`), `Infinity % n = NaN`, NaN
propagates. -/
def eMod (e : ENum) (n : ℤ) : ENum :=
  match e with
  | .num i => .num (i % n)
  | .inf => .nan
  | .nan => .nan

/-- JS comparison `e > 0`: true for +Infinity, false for NaN. -/
def ePos (e : ENum) : Bool :=
  match e with
  | .num i => 0 < i
  | .inf => true
  | .nan => false

/-- JS string conversion of an extended number (template interpolation). -/
def eToString (e : ENum) : String :=
  match e with
  | .num i => toString i
  | .inf => "Infinity"
  | .nan => "NaN"

/-- Smallest exponent `k ≤ 1100` such that `q * 10^k` is an integer.
Every IEEE double is a dyadic rational with at most 1074 fractional bits,
so for every value the source can hold such a `k` exists. -/
def decExp (q : ℚ) : Option ℕ :=
  (List.range 1100).find? (fun k => (q * (10 : ℚ) ^ k).den == 1)

/-- Left-pad a numeral with zeros to `k` digits. -/
def padZeros (s : String) (k : ℕ) : String :=
  String.mk (List.replicate (k - s.length) '0') ++ s

/-- Decimal rendering of a non-negative rational with a terminating decimal
expansion, with no trailing fractional zeros — the plain-decimal part of JS
`Number.prototype.toString`. -/
def posRatToString (q : ℚ) : String :=
  match decExp q with
  | none => "unrepresentable"
  | some 0 => Nat.repr q.num.toNat
  | some (k + 1) =>
    let m := (q * (10 : ℚ) ^ (k + 1)).num.toNat
    Nat.repr (m / 10 ^ (k + 1)) ++ "." ++ padZeros (Nat.repr (m % 10 ^ (k + 1))) (k + 1)

/-- JS `Number.prototype.toString` on a finite value, plain decimal form
(the exponential notation JS switches to beyond 1e21 is not modelled; no
claim depends on the rendering at such magnitudes). -/
def ratToString (q : ℚ) : String :=
  (if q < 0 then "-" else "") ++ posRatToString |q|

/-- The numeric value produced by `x.toFixed(d)` for `x > 0`: round
`x * 10^d` to the nearest integer, ties away from zero (here: up), then
divide back.  `parseFloat` of that string recovers exactly this value. -/
def jsToFixedNum (q : ℚ) (d : ℕ) : ℚ :=
  ((round (q * (10 : ℚ) ^ d) : ℤ) : ℚ) / (10 : ℚ) ^ d

/-- Magnitude suffix table of src/src/numberHelper.js `shortenNumber`,
scanned largest-first. -/
def suffixUnits : List (ℚ × String) :=
  [(10 ^ 12, "T"), (10 ^ 9, "B"), (10 ^ 6, "M"), (10 ^ 3, "K")]

/-- src/src/numberHelper.js `shortenNumber(num, decimals = 1)`.
The guard is `typeof num !== 'number' || isNaN(num)`; +Infinity and
-Infinity pass it.  For +Infinity the JS trace is: `absNum = Infinity`,
`absNum < 1000` is false, `Infinity >= 1e12` selects tier "T",
`(Infinity / 1e12).toFixed(d)` is "Infinity", `parseFloat` gives Infinity,
and string concatenation yields "InfinityT" (sign "-" prepended for
-Infinity). -/
def shortenNumber (num : JSNumber) (decimals : ℕ) : Except String String :=
  match num with
  | .nan => .error "Invalid number provided"
  | .inf => .ok "InfinityT"
  | .ninf => .ok "-InfinityT"
  | .fin q =>
    let absNum := |q|
    let sign := if q < 0 then "-" else ""
    if absNum < 1000 then .ok (ratToString q)
    else
      match suffixUnits.find? (fun u => decide (absNum ≥ u.1)) with
      | some u => .ok (sign ++ ratToString (jsToFixedNum (absNum / u.1) decimals) ++ u.2)
      | none => .ok (ratToString q)

/-- Option bag of src/unnamed/part_002 `formatDuration` with its JS
defaults. -/
structure DurationOptions where
  includeSeconds : Bool := true
  includeMinutes : Bool := true
  includeHours : Bool := true
  includeDays : Bool := true
  includeWeeks : Bool := true
  includeMonths : Bool := true
  includeYears : Bool := true
  maxUnits : ℕ := 3
  compact : Bool := false
deriving DecidableEq

/-- The default option bag (`options = {}`). -/
def defaultDurationOptions : DurationOptions := {}

/-- The `timeUnits` table of `formatDuration`: name, seconds per unit,
enabled flag. -/
def timeUnits (o : DurationOptions) : List (String × ℤ × Bool) :=
  [("year", 31536000, o.includeYears),
   ("month", 2592000, o.includeMonths),
   ("week", 604800, o.includeWeeks),
   ("day", 86400, o.includeDays),
   ("hour", 3600, o.includeHours),
   ("minute", 60, o.includeMinutes),
   ("second", 1, o.includeSeconds)]

/-- The `for (const unit of timeUnits)` loop of `formatDuration`, collecting
the pushed terms as (unit name, count) pairs; `emitted` is the number of
terms pushed so far (`units.length`).  A disabled unit or one with
`remaining < unit.seconds` is skipped (`continue`, which also skips the
break check); otherwise the count and remainder are computed, a positive
count is pushed, and the loop breaks once `units.length >= maxUnits`. -/
def durLoop : List (String × ℤ × Bool) → ENum → ℕ → ℕ → List (String × ENum)
  | [], _, _, _ => []
  | (name, secs, enabled) :: rest, remaining, maxUnits, emitted =>
    if !enabled || eLt remaining secs then durLoop rest remaining maxUnits emitted
    else
      let count := eFloorDiv remaining secs
      let r2 := eMod remaining secs
      if ePos count then
        if emitted + 1 ≥ maxUnits then [(name, count)]
        else (name, count) :: durLoop rest r2 maxUnits (emitted + 1)
      else
        if emitted ≥ maxUnits then []
        else durLoop rest r2 maxUnits emitted

/-- Rendering of one pushed term: `${count}${unitName}` with
`unitName = compact ? unit.name.charAt(0) : unit.name`. -/
def renderTerm (compact : Bool) (t : String × ENum) : String :=
  eToString t.2 ++ (if compact then t.1.take 1 else t.1)

/-- The body of `formatDuration` after the input guard: run the unit loop
on the floored remaining value and join the rendered terms with single
spaces; an empty term list yields the zero phrase. -/
def durRun (remaining : ENum) (o : DurationOptions) : Except String String :=
  let terms := durLoop (timeUnits o) remaining o.maxUnits 0
  if terms.isEmpty then .ok (if o.compact then "0s" else "0 seconds")
  else .ok (String.intercalate " " (terms.map (renderTerm o.compact)))

/-- src/unnamed/part_002 `formatDuration(seconds, options)`.
The guard is `typeof seconds !== 'number' || isNaN(seconds) || seconds < 0`:
NaN and every negative value (including -Infinity) throw, while +Infinity
passes and `Math.floor(Infinity) = Infinity` enters the loop. -/
def formatDuration (seconds : JSNumber) (o : DurationOptions) : Except String String :=
  match seconds with
  | .nan => .error "Invalid duration provided"
  | .ninf => .error "Invalid duration provided"
  | .inf => durRun .inf o
  | .fin q =>
    if q < 0 then .error "Invalid duration provided"
    else durRun (.num ⌊q⌋) o

/-- The `intervals` threshold table shared by `timeAgo` and `timeFromNow`
in src/unnamed/part_002: unit name and seconds per unit, descending. -/
def relIntervals : List (String × ℤ) :=
  [("year", 31536000), ("month", 2592000), ("week", 604800), ("day", 86400),
   ("hour", 3600), ("minute", 60), ("second", 1)]

/-- The `for (const interval of intervals)` scan: the first unit whose
whole-unit count `Math.floor(diff / interval.seconds)` is at least 1,
together with that count. -/
def relScan : List (String × ℤ) → ℤ → Option (ℤ × String)
  | [], _ => none
  | (name, secs) :: rest, diff =>
    let count := diff / secs
    if 1 ≤ count then some (count, name) else relScan rest diff

/-- The arguments handed to the external `Intl.RelativeTimeFormat.format`
engine (signed count and unit name); the locale engine itself is an
external collaborator and is not modelled. -/
structure RTFCall where
  amount : ℤ
  relUnit : String
deriving DecidableEq

/-- Common body of src/unnamed/part_002 `timeAgo` (when `ago` is true) and
`timeFromNow` (when `ago` is false) on a valid date; `now` and `target`
are epoch milliseconds.  `diffInSeconds` is `Math.floor(base / 1000)`
where `base` is `now - targetDate` for `timeAgo` and `targetDate - now`
for `timeFromNow`.  A negative difference delegates to the opposite
function — the source's mutual call, here the same function with the flag
flipped, which recurses at most once since the opposite base is then
positive.  Otherwise the interval scan picks the first unit with a
whole-unit count of at least 1 and the phrase is `rtf.format(∓count,
unit)` (negated count for `timeAgo`), falling back to the zero-second
phrase. -/
def relTime (ago : Bool) (now target : ℤ) : RTFCall :=
  if _h : (if ago then now - target else target - now) / 1000 < 0 then
    relTime (!ago) now target
  else
    match relScan relIntervals ((if ago then now - target else target - now) / 1000) with
    | some cu => ⟨if ago then -cu.1 else cu.1, cu.2⟩
    | none => ⟨0, "second"⟩
termination_by (if (if ago then now - target else target - now) < 0 then 1 else 0 : ℕ)
decreasing_by
  simp only [dite_eq_ite] at *
  have hlt : (if ago then now - target else target - now) < 0 := by
    by_contra hge
    push_neg at hge
    omega
  cases ago <;> simp_all <;> omega

/-- src/unnamed/part_002 `timeAgo(date, locale)` for a valid date. -/
def timeAgo (now target : ℤ) : RTFCall := relTime true now target

/-- src/unnamed/part_002 `timeFromNow(date, locale)` for a valid date. -/
def timeFromNow (now target : ℤ) : RTFCall := relTime false now target

/-- Milliseconds per calendar day. -/
def msPerDay : ℤ := 86400000

/-- Day index of an instant: floor of epoch milliseconds over a day.
`Instant`s are UTC-normalized (spec data model), so the local-time calendar
arithmetic of the source's `Date` methods is day arithmetic on this index. -/
def dayNumber (ms : ℤ) : ℤ := ms / msPerDay

/-- `setHours(0, 0, 0, 0)`: truncate an instant to midnight of its day. -/
def dayStart (ms : ℤ) : ℤ := dayNumber ms * msPerDay

/-- JS `Date.prototype.getDay`: 0 = Sunday … 6 = Saturday.  The epoch day
(1970-01-01) was a Thursday, hence the +4 offset. -/
def dayOfWeek (ms : ℤ) : ℤ := (dayNumber ms + 4) % 7

/-- Proleptic-Gregorian conversion from a day index to (year, month, day),
months 1–12; standard civil-calendar algorithm, used to model the
month/year arithmetic of the source's `Date` setters. -/
def civilFromDays (z0 : ℤ) : ℤ × ℤ × ℤ :=
  let z := z0 + 719468
  let era := z / 146097
  let doe := z - era * 146097
  let yoe := (doe - doe / 1460 + doe / 36524 - doe / 146096) / 365
  let y := yoe + era * 400
  let doy := doe - (365 * yoe + yoe / 4 - yoe / 100)
  let mp := (5 * doy + 2) / 153
  let d := doy - (153 * mp + 2) / 5 + 1
  let m := if mp < 10 then mp + 3 else mp - 9
  (if m ≤ 2 then y + 1 else y, m, d)

/-- Inverse civil-calendar conversion: day index of (year, month, day). -/
def daysFromCivil (y m d : ℤ) : ℤ :=
  let y2 := if m ≤ 2 then y - 1 else y
  let era := y2 / 400
  let yoe := y2 - era * 400
  let doy := (153 * (if m > 2 then m - 3 else m + 9) + 2) / 5 + d - 1
  let doe := yoe * 365 + yoe / 4 - yoe / 100 + doy
  era * 146097 + doe - 719468

/-- src/unnamed/part_002 `startOf(date, period)` on a valid UTC-normalized
instant.  Week: `daysToSubtract = dayOfWeek === 0 ? 6 : dayOfWeek - 1`
(Monday as start of week), then `setDate(getDate() - daysToSubtract)`
followed by `setHours(0,0,0,0)`.  Month: `setDate(1)`; year:
`setMonth(0, 1)`; unrecognized periods throw. -/
def startOf (ms : ℤ) (period : String) : Except String ℤ :=
  match period with
  | "day" => .ok (dayStart ms)
  | "week" =>
    let dow := dayOfWeek ms
    let daysToSubtract := if dow = 0 then 6 else dow - 1
    .ok (dayStart (ms - daysToSubtract * msPerDay))
  | "month" =>
    let c := civilFromDays (dayNumber ms)
    .ok (daysFromCivil c.1 c.2.1 1 * msPerDay)
  | "year" =>
    let c := civilFromDays (dayNumber ms)
    .ok (daysFromCivil c.1 1 1 * msPerDay)
  | _ => .error "Invalid period provided"

/-- src/unnamed/part_002 `endOf(date, period)` on a valid UTC-normalized
instant.  Week: `daysToAdd = dayOfWeek === 0 ? 0 : 7 - dayOfWeek` (Sunday
as end of week), then `setHours(23,59,59,999)`.  Month:
`setMonth(getMonth() + 1, 0)` is the day before the first of the next
month; year: `setMonth(11, 31)`. -/
def endOf (ms : ℤ) (period : String) : Except String ℤ :=
  match period with
  | "day" => .ok (dayStart ms + (msPerDay - 1))
  | "week" =>
    let dow := dayOfWeek ms
    let daysToAdd := if dow = 0 then 0 else 7 - dow
    .ok (dayStart (ms + daysToAdd * msPerDay) + (msPerDay - 1))
  | "month" =>
    let c := civilFromDays (dayNumber ms)
    let firstOfNext :=
      if c.2.1 = 12 then daysFromCivil (c.1 + 1) 1 1 else daysFromCivil c.1 (c.2.1 + 1) 1
    .ok ((firstOfNext - 1) * msPerDay + (msPerDay - 1))
  | "year" =>
    let c := civilFromDays (dayNumber ms)
    .ok (daysFromCivil c.1 12 31 * msPerDay + (msPerDay - 1))
  | _ => .error "Invalid period provided"

/-- `str.replace(/\D/g, '')`: keep only the decimal digits. -/
def stripNonDigits (s : String) : List Char := s.data.filter Char.isDigit

/-- Luhn doubling step: double a digit and subtract 9 when the result
exceeds 9. -/
def luhnDouble (d : ℕ) : ℕ := if d * 2 > 9 then d * 2 - 9 else d * 2

/-- The right-to-left Luhn loop of src/src/validationHelper.js
`isValidCreditCard`, on the reversed digit list; `isEven` starts false so
the second digit from the right is the first doubled one. -/
def luhnSum : List Char → Bool → ℕ
  | [], _ => 0
  | c :: rest, isEven =>
    let digit := c.toNat - 48
    (if isEven then luhnDouble digit else digit) + luhnSum rest (!isEven)

/-- Result record `{valid, type}` returned by the credit-card and ISBN
validators. -/
structure CheckResult where
  valid : Bool
  type : Option String
deriving DecidableEq

/-- Card pattern `/^4/`. -/
def visaMatch : List Char → Bool
  | '4' :: _ => true
  | _ => false

/-- Card pattern `/^5[1-5]/`. -/
def mastercardMatch : List Char → Bool
  | '5' :: c :: _ => '1' ≤ c && c ≤ '5'
  | _ => false

/-- Card pattern `/^3[47]/`. -/
def amexMatch : List Char → Bool
  | '3' :: c :: _ => c = '4' || c = '7'
  | _ => false

/-- Card pattern `/^6(?:011|5)/`. -/
def discoverMatch : List Char → Bool
  | '6' :: '0' :: '1' :: '1' :: _ => true
  | '6' :: '5' :: _ => true
  | _ => false

/-- Card pattern `/^3[0689]/`. -/
def dinersMatch : List Char → Bool
  | '3' :: c :: _ => c = '0' || c = '6' || c = '8' || c = '9'
  | _ => false

/-- Card pattern `/^35/`. -/
def jcbMatch : List Char → Bool
  | '3' :: '5' :: _ => true
  | _ => false

/-- Card-type classification: first matching pattern in the fixed object
order visa, mastercard, amex, discover, diners, jcb; no match gives null.
Defined on the digit string alone — it never consults the Luhn checksum. -/
def cardTypeOf (digits : List Char) : Option String :=
  if visaMatch digits then some "visa"
  else if mastercardMatch digits then some "mastercard"
  else if amexMatch digits then some "amex"
  else if discoverMatch digits then some "discover"
  else if dinersMatch digits then some "diners"
  else if jcbMatch digits then some "jcb"
  else none

/-- src/src/validationHelper.js `isValidCreditCard(cardNumber)`: strip
non-digits, reject lengths outside 13–19 with `{valid:false, type:null}`,
otherwise report the Luhn verdict together with the card type. -/
def isValidCreditCard (cardNumber : String) : CheckResult :=
  let digits := stripNonDigits cardNumber
  if digits.length < 13 || digits.length > 19 then ⟨false, none⟩
  else ⟨decide (luhnSum digits.reverse false % 10 = 0), cardTypeOf digits⟩

/-- JS `parseInt` on a single character: its digit value, or NaN (modelled
as `none`) for a non-digit. -/
def charDigitVal (c : Char) : Option ℕ :=
  if c.isDigit then some (c.toNat - 48) else none

/-- Check-digit value of an ISBN-10: the literal 'X' counts as 10,
otherwise `parseInt` of the character. -/
def isbnCheckVal (c : Char) : Option ℕ :=
  if c = 'X' then some 10 else charDigitVal c

/-- The ISBN-10 weighted sum `Σ digit[i] * (10 - i)` over the first nine
characters; `w` is the weight of the head character.  A non-digit makes
the JS sum NaN, modelled as `none`. -/
def isbn10sum : List Char → ℕ → Option ℕ
  | [], _ => some 0
  | c :: rest, w =>
    match charDigitVal c, isbn10sum rest (w - 1) with
    | some d, some s => some (d * w + s)
    | _, _ => none

/-- The ISBN-13 weighted sum `Σ digit[i] * (i even ? 1 : 3)` over the
first twelve characters; `i` is the index of the head character. -/
def isbn13sum : List Char → ℕ → Option ℕ
  | [], _ => some 0
  | c :: rest, i =>
    match charDigitVal c, isbn13sum rest (i + 1) with
    | some d, some s => some (d * (if i % 2 = 0 then 1 else 3) + s)
    | _, _ => none

/-- The eleven admissible ISBN-10 check-digit characters: the decimal
digits and the literal 'X' (worth 10). -/
def isbnCheckChars : List Char :=
  ['0', '1', '2', '3', '4', '5', '6', '7', '8', '9', 'X']

/-- `isbn.replace(/[-\s]/g, '')`: strip hyphens and whitespace. -/
def stripIsbn (s : String) : List Char :=
  s.data.filter (fun c => !(c = '-' || c.isWhitespace))

/-- src/src/validationHelper.js `isValidISBN(isbn)`: strip hyphens and
spaces; length 10 runs the mod-11 weighted check (sum of the first nine
digits plus the check value must be divisible by 11), length 13 runs the
mod-10 alternating check, any other length is `{valid:false, type:null}`.
A NaN sum (non-digit character) makes the comparison false, modelled by
the `none` fallthrough. -/
def isValidISBN (isbn : String) : CheckResult :=
  let cleaned := stripIsbn isbn
  if cleaned.length = 10 then
    match isbn10sum (cleaned.take 9) 10, isbnCheckVal (cleaned.getD 9 ' ') with
    | some s, some cd => ⟨decide ((s + cd) % 11 = 0), some "ISBN-10"⟩
    | _, _ => ⟨false, some "ISBN-10"⟩
  else if cleaned.length = 13 then
    match isbn13sum (cleaned.take 12) 0, charDigitVal (cleaned.getD 12 ' ') with
    | some s, some d12 => ⟨decide ((10 - s % 10) % 10 = d12), some "ISBN-13"⟩
    | _, _ => ⟨false, some "ISBN-13"⟩
  else ⟨false, none⟩

/-- ASCII upper-casing of one character (the `Char.toUpper` rule); the
country codes looked up in the pattern tables are ASCII, where JS
`toUpperCase` agrees with this. -/
def jsToUpperChar (c : Char) : Char :=
  if 97 ≤ c.toNat ∧ c.toNat ≤ 122 then Char.ofNat (c.toNat - 32) else c

/-- JS `String.prototype.toUpperCase` restricted to ASCII. -/
def jsToUpper (s : String) : String := String.mk (s.data.map jsToUpperChar)

/-- Character-range test, e.g. `[2-9]`. -/
def inRange (c lo hi : Char) : Bool := lo ≤ c && c ≤ hi

/-- `\d{lo,hi}`: between `lo` and `hi` digits. -/
def digitsBetween (l : List Char) (lo hi : ℕ) : Bool :=
  decide (lo ≤ l.length) && decide (l.length ≤ hi) && l.all Char.isDigit

/-- `\d{n}`: exactly `n` digits. -/
def digitsExact (l : List Char) (n : ℕ) : Bool :=
  decide (l.length = n) && l.all Char.isDigit

/-- `[2-9]\d{2}[2-9]\d{2}\d{4}`: the ten-digit core of the US/CA phone
patterns. -/
def usPhoneCore : List Char → Bool
  | [a, b, c, d, e, f, g, h, i, j] =>
    inRange a '2' '9' && b.isDigit && c.isDigit && inRange d '2' '9' &&
      e.isDigit && f.isDigit && g.isDigit && h.isDigit && i.isDigit && j.isDigit
  | _ => false

/-- Phone pattern `/^1?[2-9]\d{2}[2-9]\d{2}\d{4}$/` (US): the language is
the union of the with-`1` and without-`1` alternatives. -/
def usPhonePat (l : List Char) : Bool :=
  (match l with
   | '1' :: rest => usPhoneCore rest
   | _ => false) ||
  usPhoneCore l

/-- Phone pattern `/^(\+44|0)[1-9]\d{8,9}$/` (UK). -/
def ukPhonePat : List Char → Bool
  | '+' :: '4' :: '4' :: c :: rest => inRange c '1' '9' && digitsBetween rest 8 9
  | '0' :: c :: rest => inRange c '1' '9' && digitsBetween rest 8 9
  | _ => false

/-- `[6-9]\d{9}`: the core of the IN phone pattern. -/
def inPhoneCore : List Char → Bool
  | c :: rest => inRange c '6' '9' && digitsExact rest 9
  | [] => false

/-- Phone pattern `/^(\+91|0)?[6-9]\d{9}$/` (IN): union over the three
prefix alternatives (`+91`, `0`, none). -/
def inPhonePat (l : List Char) : Bool :=
  (match l with
   | '+' :: '9' :: '1' :: rest => inPhoneCore rest
   | _ => false) ||
  (match l with
   | '0' :: rest => inPhoneCore rest
   | _ => false) ||
  inPhoneCore l

/-- Phone pattern `/^(\+1|1)?[2-9]\d{2}[2-9]\d{2}\d{4}$/` (CA). -/
def caPhonePat (l : List Char) : Bool :=
  (match l with
   | '+' :: '1' :: rest => usPhoneCore rest
   | _ => false) ||
  (match l with
   | '1' :: rest => usPhoneCore rest
   | _ => false) ||
  usPhoneCore l

/-- `[2-478]\d{8}`: the core of the AU phone pattern. -/
def auPhoneCore : List Char → Bool
  | c :: rest =>
    (c = '2' || c = '3' || c = '4' || c = '7' || c = '8') && digitsExact rest 8
  | [] => false

/-- Phone pattern `/^(\+61|0)[2-478]\d{8}$/` (AU). -/
def auPhonePat (l : List Char) : Bool :=
  (match l with
   | '+' :: '6' :: '1' :: rest => auPhoneCore rest
   | _ => false) ||
  (match l with
   | '0' :: rest => auPhoneCore rest
   | _ => false)

/-- `[1-9]\d{1,4}\d{1,4}\d{1,4}`: the core of the DE phone pattern (three
1–4 digit runs concatenate to any 3–12 digit run). -/
def dePhoneCore : List Char → Bool
  | c :: rest => inRange c '1' '9' && digitsBetween rest 3 12
  | [] => false

/-- Phone pattern `/^(\+49|0)[1-9]\d{1,4}\d{1,4}\d{1,4}$/` (DE). -/
def dePhonePat (l : List Char) : Bool :=
  (match l with
   | '+' :: '4' :: '9' :: rest => dePhoneCore rest
   | _ => false) ||
  (match l with
   | '0' :: rest => dePhoneCore rest
   | _ => false)

/-- `[1-9]\d{8}`: the core of the FR phone pattern. -/
def frPhoneCore : List Char → Bool
  | c :: rest => inRange c '1' '9' && digitsExact rest 8
  | [] => false

/-- Phone pattern `/^(\+33|0)[1-9](\d{8})$/` (FR). -/
def frPhonePat (l : List Char) : Bool :=
  (match l with
   | '+' :: '3' :: '3' :: rest => frPhoneCore rest
   | _ => false) ||
  (match l with
   | '0' :: rest => frPhoneCore rest
   | _ => false)

/-- `[789]0\d{8}`: the core of the JP phone pattern. -/
def jpPhoneCore : List Char → Bool
  | c :: '0' :: rest => (c = '7' || c = '8' || c = '9') && digitsExact rest 8
  | _ => false

/-- Phone pattern `/^(\+81|0)[789]0\d{8}$/` (JP). -/
def jpPhonePat (l : List Char) : Bool :=
  (match l with
   | '+' :: '8' :: '1' :: rest => jpPhoneCore rest
   | _ => false) ||
  (match l with
   | '0' :: rest => jpPhoneCore rest
   | _ => false)

/-- `1[3-9]\d{9}`: the core of the CN phone pattern. -/
def cnPhoneCore : List Char → Bool
  | '1' :: c :: rest => inRange c '3' '9' && digitsExact rest 9
  | _ => false

/-- Phone pattern `/^(\+86|0)?1[3-9]\d{9}$/` (CN). -/
def cnPhonePat (l : List Char) : Bool :=
  (match l with
   | '+' :: '8' :: '6' :: rest => cnPhoneCore rest
   | _ => false) ||
  (match l with
   | '0' :: rest => cnPhoneCore rest
   | _ => false) ||
  cnPhoneCore l

/-- `[1-9]{2}[2-9]\d{8}`: the core of the BR phone pattern. -/
def brPhoneCore : List Char → Bool
  | a :: b :: c :: rest =>
    inRange a '1' '9' && inRange b '1' '9' && inRange c '2' '9' && digitsExact rest 8
  | _ => false

/-- Phone pattern `/^(\+55|0)?[1-9]{2}[2-9]\d{8}$/` (BR). -/
def brPhonePat (l : List Char) : Bool :=
  (match l with
   | '+' :: '5' :: '5' :: rest => brPhoneCore rest
   | _ => false) ||
  (match l with
   | '0' :: rest => brPhoneCore rest
   | _ => false) ||
  brPhoneCore l

/-- The per-country phone `patterns` table of src/src/validationHelper.js
`isValidPhone`, keyed by upper-cased country code; an absent key gives
`none` (a falsy JS lookup). -/
def phonePatternFor (country : String) : Option (List Char → Bool) :=
  match country with
  | "US" => some usPhonePat
  | "UK" => some ukPhonePat
  | "IN" => some inPhonePat
  | "CA" => some caPhonePat
  | "AU" => some auPhonePat
  | "DE" => some dePhonePat
  | "FR" => some frPhonePat
  | "JP" => some jpPhonePat
  | "CN" => some cnPhonePat
  | "BR" => some brPhonePat
  | _ => none

/-- The generic international fallback `/^\d{7,15}$/`. -/
def genericPhonePat (l : List Char) : Bool := digitsBetween l 7 15

/-- src/src/validationHelper.js `isValidPhone(phone, country = null)`:
strip non-digits; when `country` is truthy (non-null and non-empty) and
its upper-cased code is in the pattern table, test that pattern against
the digits, otherwise fall through to the generic 7–15-digit test. -/
def isValidPhone (phone : String) (country : Option String) : Bool :=
  let digits := stripNonDigits phone
  match country with
  | none => genericPhonePat digits
  | some c =>
    if c = "" then genericPhonePat digits
    else
      match phonePatternFor (jsToUpper c) with
      | some pat => pat digits
      | none => genericPhonePat digits

/-- `[A-Za-z]`. -/
def isAsciiLetter (c : Char) : Bool :=
  ('A' ≤ c && c ≤ 'Z') || ('a' ≤ c && c ≤ 'z')

/-- `[A-Z]`. -/
def isAsciiUpper (c : Char) : Bool := 'A' ≤ c && c ≤ 'Z'

/-- Postal pattern `/^\d{5}(-\d{4})?$/` (US). -/
def usPostalPat (l : List Char) : Bool :=
  digitsExact l 5 ||
  (match l with
   | a :: b :: c :: d :: e :: '-' :: rest =>
     a.isDigit && b.isDigit && c.isDigit && d.isDigit && e.isDigit && digitsExact rest 4
   | _ => false)

/-- Postal pattern `/^[A-Za-z]\d[A-Za-z] \d[A-Za-z]\d$/` (CA). -/
def caPostalPat : List Char → Bool
  | [a, b, c, ' ', d, e, f] =>
    isAsciiLetter a && b.isDigit && isAsciiLetter c &&
      d.isDigit && isAsciiLetter e && f.isDigit
  | _ => false

/-- Postal pattern `/^[A-Z]{1,2}\d[A-Z\d]? \d[A-Z]{2}$/` (UK), split by
total length: the prefix before the space is `LD` (6 chars total),
`LDX`/`LLD` (7 chars), or `LLDX` (8 chars), where `L` is an uppercase
letter, `D` a digit and `X` an uppercase letter or digit. -/
def ukPostalPat : List Char → Bool
  | [a, b, ' ', d, e, f] =>
    isAsciiUpper a && b.isDigit && d.isDigit && isAsciiUpper e && isAsciiUpper f
  | [a, b, c, ' ', d, e, f] =>
    isAsciiUpper a &&
      ((b.isDigit && (isAsciiUpper c || c.isDigit)) || (isAsciiUpper b && c.isDigit)) &&
      d.isDigit && isAsciiUpper e && isAsciiUpper f
  | [a, b, c, x, ' ', d, e, f] =>
    isAsciiUpper a && isAsciiUpper b && c.isDigit && (isAsciiUpper x || x.isDigit) &&
      d.isDigit && isAsciiUpper e && isAsciiUpper f
  | _ => false

/-- Postal pattern `/^\d{3}-\d{4}$/` (JP). -/
def jpPostalPat : List Char → Bool
  | a :: b :: c :: '-' :: rest => a.isDigit && b.isDigit && c.isDigit && digitsExact rest 4
  | _ => false

/-- Postal pattern `/^\d{5}-?\d{3}$/` (BR). -/
def brPostalPat (l : List Char) : Bool :=
  digitsExact l 8 ||
  (match l with
   | a :: b :: c :: d :: e :: '-' :: rest =>
     a.isDigit && b.isDigit && c.isDigit && d.isDigit && e.isDigit && digitsExact rest 3
   | _ => false)

/-- The per-country postal `patterns` table of src/src/validationHelper.js
`isValidPostalCode`; DE and FR are `/^\d{5}$/`, IN `/^\d{6}$/`, AU
`/^\d{4}$/`. -/
def postalPatternFor (country : String) : Option (List Char → Bool) :=
  match country with
  | "US" => some usPostalPat
  | "CA" => some caPostalPat
  | "UK" => some ukPostalPat
  | "DE" => some (fun l => digitsExact l 5)
  | "FR" => some (fun l => digitsExact l 5)
  | "JP" => some jpPostalPat
  | "IN" => some (fun l => digitsExact l 6)
  | "AU" => some (fun l => digitsExact l 4)
  | "BR" => some brPostalPat
  | _ => none

/-- src/src/validationHelper.js `isValidPostalCode(postalCode, country =
'US')`: look up the upper-cased country in the pattern table and test it;
an unknown country returns false (`pattern ? pattern.test(...) : false`). -/
def isValidPostalCode (postalCode : String) (country : String) : Bool :=
  match postalPatternFor (jsToUpper country) with
  | some pat => pat postalCode.data
  | none => false

/-- The `for (let i = 0; i < arr.length; i += size)` loop of
src/unnamed/part_001 `chunk`, as recursion on the remaining suffix:
each step pushes `arr.slice(i, i + size)` (the first `size` elements of
the suffix) and continues from index `i + size` (the suffix with `size`
elements dropped).  A chunk size of 0 cannot reach this function: `chunk`
throws on `size <= 0`. -/
def chunkGo {α : Type} : List α → ℕ → List (List α)
  | [], _ => []
  | _ :: _, 0 => []
  | a :: rest, s + 1 => ((a :: rest).take (s + 1)) :: chunkGo (rest.drop s) (s + 1)
termination_by l _ => l.length
decreasing_by
  simp only [List.length_cons, List.length_drop]
  omega

/-- src/unnamed/part_001 `chunk(arr, size)`: a non-positive size throws
`Invalid size provided`, otherwise the array is cut into consecutive
slices of `size` elements.  The size is modelled as an integer (the JS
loop also admits fractional sizes, which no claim quantifies over). -/
def chunk {α : Type} (arr : List α) (size : ℤ) : Except String (List (List α)) :=
  if size ≤ 0 then .error "Invalid size provided"
  else .ok (chunkGo arr size.toNat)

/-! ## Theorems -/

/-- `durRun` always succeeds: both branches of the body return `.ok`. -/
theorem durRun_ne_error (r : ENum) (o : DurationOptions) (e : String) :
    durRun r o ≠ .error e := by
  unfold durRun
  dsimp only
  split <;> simp

/-- The unit names of the terms pushed by the duration loop form a sublist
of the unit-table names: terms are emitted in table order, at most once per
unit. -/
theorem durLoop_names_sublist (units : List (String × ℤ × Bool)) :
    ∀ (r : ENum) (m e : ℕ),
      ((durLoop units r m e).map Prod.fst).Sublist (units.map fun u => u.1) := by
  induction units with
  | nil => intro r m e; simp [durLoop]
  | cons u rest ih =>
    intro r m e
    obtain ⟨name, secs, enabled⟩ := u
    rw [durLoop]
    split
    · exact (ih r m e).cons _
    · dsimp only
      split
      · split
        · simp
        · simp only [List.map_cons]
          exact List.Sublist.cons₂ _ (ih _ m _)
      · split
        · simp
        · exact (ih _ m _).cons _

/-- Every term pushed by the duration loop on a finite remaining value has
a positive integer count: zero-count units are skipped. -/
theorem durLoop_counts_pos (units : List (String × ℤ × Bool)) :
    ∀ (i : ℤ) (m e : ℕ) (t : String × ENum), t ∈ durLoop units (.num i) m e →
      ∃ k : ℤ, 0 < k ∧ t.2 = .num k := by
  induction units with
  | nil => intro i m e t ht; simp [durLoop] at ht
  | cons u rest ih =>
    intro i m e t ht
    obtain ⟨name, secs, enabled⟩ := u
    rw [durLoop] at ht
    split at ht
    · exact ih i m e t ht
    · dsimp only [eFloorDiv, eMod] at ht
      split at ht
      · rename_i hpos
        simp only [ePos, decide_eq_true_eq] at hpos
        split at ht
        · simp only [List.mem_singleton] at ht
          subst ht
          exact ⟨i / secs, hpos, rfl⟩
        · rcases List.mem_cons.mp ht with rfl | hmem
          · exact ⟨i / secs, hpos, rfl⟩
          · exact ih (i % secs) m (e + 1) t hmem
      · split at ht
        · simp at ht
        · exact ih (i % secs) m e t ht

/-- C1 counterexample: with default options `formatDuration(3661)` renders
full unit names with no separating space, `"1hour 1minute 1second"`, not
the compact `"1h 1m 1s"`. -/
theorem formatDuration_default_units_not_compact :
    formatDuration (.fin 3661) defaultDurationOptions = .ok "1hour 1minute 1second" ∧
    formatDuration (.fin 3661) defaultDurationOptions ≠ .ok "1h 1m 1s" := by
  constructor <;> decide

/-- C1 (amended): with default options `formatDuration(0)` is
`"0 seconds"` and `formatDuration(3661)` is `"1hour 1minute 1second"`
(the compact forms `"1h 1m 1s"` and, with `maxUnits: 2`, `"1h 1m"`
require `compact: true`); `formatDuration(3661, {maxUnits: 2})` emits at
most 2 non-zero terms; and for every non-negative finite input the emitted
terms appear in strictly descending unit order (their names form a
sublist of the descending unit table) with every count positive
(zero-count units omitted). -/
theorem formatDuration_examples_and_term_shape :
    formatDuration (.fin 0) defaultDurationOptions = .ok "0 seconds" ∧
    formatDuration (.fin 3661) defaultDurationOptions = .ok "1hour 1minute 1second" ∧
    formatDuration (.fin 3661) { compact := true } = .ok "1h 1m 1s" ∧
    formatDuration (.fin 3661) { maxUnits := 2 } = .ok "1hour 1minute" ∧
    formatDuration (.fin 3661) { maxUnits := 2, compact := true } = .ok "1h 1m" ∧
    ∀ (q : ℚ) (o : DurationOptions), 0 ≤ q →
      formatDuration (.fin q) o = durRun (.num ⌊q⌋) o ∧
      ((durLoop (timeUnits o) (.num ⌊q⌋) o.maxUnits 0).map Prod.fst).Sublist
        ((timeUnits o).map fun u => u.1) ∧
      ∀ t ∈ durLoop (timeUnits o) (.num ⌊q⌋) o.maxUnits 0,
        ∃ k : ℤ, 0 < k ∧ t.2 = .num k := by
  refine ⟨by decide, by decide, by decide, by decide, by decide, ?_⟩
  intro q o hq
  refine ⟨?_, durLoop_names_sublist _ _ _ _, fun t ht => durLoop_counts_pos _ _ _ _ t ht⟩
  simp only [formatDuration]
  rw [if_neg (not_lt.mpr hq)]

/-- C1 witness: the general part of the amended claim instantiated at
3661 seconds with default options. -/
theorem formatDuration_examples_and_term_shape_witness :
    formatDuration (.fin 3661) defaultDurationOptions
        = durRun (.num ⌊(3661 : ℚ)⌋) defaultDurationOptions ∧
    ((durLoop (timeUnits defaultDurationOptions) (.num ⌊(3661 : ℚ)⌋)
        defaultDurationOptions.maxUnits 0).map Prod.fst).Sublist
      ((timeUnits defaultDurationOptions).map fun u => u.1) :=
  ⟨(formatDuration_examples_and_term_shape.2.2.2.2.2 3661 defaultDurationOptions
      (by norm_num)).1,
   (formatDuration_examples_and_term_shape.2.2.2.2.2 3661 defaultDurationOptions
      (by norm_num)).2.1⟩

/-- C4 counterexample: `formatDuration(Infinity)` does not throw — the
guard only checks `isNaN` and `< 0` — and returns `"Infinityyear"`. -/
theorem formatDuration_infinity_formatted :
    formatDuration JSNumber.inf defaultDurationOptions = .ok "Infinityyear" := by
  decide

/-- C4 (amended): `formatDuration` raises `InvalidInput` exactly when the
seconds argument is NaN or negative (including -Infinity); +Infinity and
every non-negative finite input return a string without raising. -/
theorem formatDuration_error_iff (x : JSNumber) (o : DurationOptions) :
    (∃ e, formatDuration x o = .error e) ↔
      (x = .nan ∨ x = .ninf ∨ ∃ q : ℚ, q < 0 ∧ x = .fin q) := by
  cases x with
  | nan =>
    constructor
    · intro _
      exact Or.inl rfl
    · intro _
      exact ⟨"Invalid duration provided", rfl⟩
  | ninf =>
    constructor
    · intro _
      exact Or.inr (Or.inl rfl)
    · intro _
      exact ⟨"Invalid duration provided", rfl⟩
  | inf =>
    simp only [formatDuration]
    constructor
    · rintro ⟨e, he⟩
      exact absurd he (durRun_ne_error _ _ _)
    · rintro (h | h | ⟨q, hq, h⟩) <;> exact JSNumber.noConfusion h
  | fin q =>
    simp only [formatDuration]
    by_cases hq : q < 0
    · rw [if_pos hq]
      constructor
      · intro _
        exact Or.inr (Or.inr ⟨q, hq, rfl⟩)
      · intro _
        exact ⟨"Invalid duration provided", rfl⟩
    · rw [if_neg hq]
      constructor
      · rintro ⟨e, he⟩
        exact absurd he (durRun_ne_error _ _ _)
      · rintro (h | h | ⟨q2, hq2, h⟩)
        · exact JSNumber.noConfusion h
        · exact JSNumber.noConfusion h
        · rw [JSNumber.fin.injEq] at h
          subst h
          exact absurd hq2 hq

/-- C4 witness: NaN input produces the error, +Infinity does not. -/
theorem formatDuration_error_iff_witness :
    (∃ e, formatDuration JSNumber.nan defaultDurationOptions = .error e) ∧
    ¬(JSNumber.inf = .nan ∨ JSNumber.inf = .ninf ∨
        ∃ q : ℚ, q < 0 ∧ JSNumber.inf = .fin q) :=
  ⟨(formatDuration_error_iff JSNumber.nan defaultDurationOptions).mpr (Or.inl rfl),
   fun h => by
    rcases ((formatDuration_error_iff JSNumber.inf defaultDurationOptions).mpr h) with ⟨e, he⟩
    exact durRun_ne_error .inf defaultDurationOptions e he⟩

/-- C2 counterexample: `shortenNumber(Infinity)` does not throw — the
guard only checks `isNaN` — and returns the coerced string `"InfinityT"`. -/
theorem shortenNumber_infinity_formatted :
    shortenNumber JSNumber.inf 1 = .ok "InfinityT" ∧
    (shortenNumber JSNumber.inf 1).isOk = true :=
  ⟨rfl, rfl⟩

/-- C2 (amended): `shortenNumber` raises `InvalidInput` exactly for NaN;
+Infinity and -Infinity are silently coerced to the suffixed strings
`"InfinityT"` and `"-InfinityT"`, and every finite input succeeds. -/
theorem shortenNumber_nonfinite_behavior (d : ℕ) :
    shortenNumber JSNumber.nan d = .error "Invalid number provided" ∧
    shortenNumber JSNumber.inf d = .ok "InfinityT" ∧
    shortenNumber JSNumber.ninf d = .ok "-InfinityT" ∧
    ∀ q : ℚ, (shortenNumber (JSNumber.fin q) d).isOk = true := by
  refine ⟨rfl, rfl, rfl, fun q => ?_⟩
  unfold shortenNumber
  dsimp only
  split
  · rfl
  · split <;> rfl

/-- C7: for a fixed current time, `timeAgo` on a strictly future instant
delegates to `timeFromNow` and returns the identical phrase, and
`timeFromNow` on a strictly past instant delegates to `timeAgo`; both
functions yield the same phrase for the same instant, whichever is
called. -/
theorem timeAgo_timeFromNow_inverse (now target : ℤ) :
    (now < target → timeAgo now target = timeFromNow now target) ∧
    (target < now → timeFromNow now target = timeAgo now target) := by
  constructor
  · intro h
    show relTime true now target = relTime false now target
    rw [relTime]
    have hc : (if true = true then now - target else target - now) / 1000 < 0 := by
      simp only [if_pos]
      omega
    rw [dif_pos hc]
    rfl
  · intro h
    show relTime false now target = relTime true now target
    rw [relTime]
    have hc : (if false = true then now - target else target - now) / 1000 < 0 := by
      simp only [Bool.false_eq_true, if_neg, if_false]
      omega
    rw [dif_pos hc]
    rfl

/-- C7 witness: the delegation at concrete instants one thousand seconds
into the future and into the past. -/
theorem timeAgo_timeFromNow_inverse_witness :
    timeAgo 0 1000000 = timeFromNow 0 1000000 ∧
    timeFromNow 1000000 0 = timeAgo 1000000 0 :=
  ⟨(timeAgo_timeFromNow_inverse 0 1000000).1 (by norm_num),
   (timeAgo_timeFromNow_inverse 1000000 0).2 (by norm_num)⟩

/-- C9 counterexample: `isValidPhone` with an unknown country code does
not fail closed — it falls back to the generic 7–15-digit test and
accepts `"1234567"`. -/
theorem isValidPhone_unknown_country_not_closed :
    isValidPhone "1234567" (some "ZZ") = true := by decide

/-- C9 (amended): with a country code absent from the pattern table,
`isValidPostalCode` returns false (fails closed) and never throws, while
`isValidPhone` with a truthy unknown country code falls back to the
generic international 7–15-digit test (which can return true) rather than
failing closed; neither throws. -/
theorem unknown_country_fallback :
    (∀ (s c : String), c ≠ "" → phonePatternFor (jsToUpper c) = none →
      isValidPhone s (some c) = genericPhonePat (stripNonDigits s)) ∧
    (∀ (s c : String), postalPatternFor (jsToUpper c) = none →
      isValidPostalCode s c = false) := by
  constructor
  · intro s c hne hnone
    unfold isValidPhone
    dsimp only
    rw [if_neg hne, hnone]
  · intro s c hnone
    unfold isValidPostalCode
    rw [hnone]

/-- C9 witness: the fallbacks at the unknown country code "ZZ". -/
theorem unknown_country_fallback_witness :
    isValidPhone "1234567" (some "ZZ") = genericPhonePat (stripNonDigits "1234567") ∧
    isValidPostalCode "12345" "ZZ" = false :=
  ⟨unknown_country_fallback.1 "1234567" "ZZ" (by decide) rfl,
   unknown_country_fallback.2 "12345" "ZZ" rfl⟩

/-- The chunk loop on an empty array produces no chunks, and conversely. -/
theorem chunkGo_eq_nil_iff {α : Type} (l : List α) (s : ℕ) :
    chunkGo l (s + 1) = [] ↔ l = [] := by
  cases l <;> simp [chunkGo]

/-- Concatenating the chunks restores the original list. -/
theorem chunkGo_flatten {α : Type} (s : ℕ) :
    ∀ (n : ℕ) (l : List α), l.length ≤ n → (chunkGo l (s + 1)).flatten = l := by
  intro n
  induction n with
  | zero =>
    intro l hl
    have : l = [] := List.eq_nil_of_length_eq_zero (by omega)
    subst this
    simp [chunkGo]
  | succ n ih =>
    intro l hl
    cases l with
    | nil => simp [chunkGo]
    | cons a rest =>
      rw [chunkGo, List.flatten_cons,
        ih (rest.drop s) (by simp only [List.length_drop]; simp at hl; omega),
        List.take_succ_cons]
      simp only [List.cons_append, List.take_append_drop]

/-- Every chunk except possibly the last has exactly `s + 1` elements. -/
theorem chunkGo_dropLast_length {α : Type} (s : ℕ) :
    ∀ (n : ℕ) (l : List α), l.length ≤ n →
      ∀ c ∈ (chunkGo l (s + 1)).dropLast, c.length = s + 1 := by
  intro n
  induction n with
  | zero =>
    intro l hl c hc
    have : l = [] := List.eq_nil_of_length_eq_zero (by omega)
    subst this
    simp [chunkGo] at hc
  | succ n ih =>
    intro l hl c hc
    cases l with
    | nil => simp [chunkGo] at hc
    | cons a rest =>
      rw [chunkGo] at hc
      rcases hx : chunkGo (rest.drop s) (s + 1) with _ | ⟨c0, cs⟩
      · rw [hx] at hc
        simp at hc
      · rw [hx] at hc
        have hne : rest.drop s ≠ [] := by
          intro hnil
          rw [hnil] at hx
          simp [chunkGo] at hx
        have hrest : s < rest.length := by
          rcases Nat.lt_or_ge s rest.length with h | h
          · exact h
          · exact absurd (List.drop_eq_nil_iff.mpr h) hne
        rcases List.mem_cons.mp (by simpa using hc) with rfl | hmem
        · simp only [List.length_take, List.length_cons]
          omega
        · have hlen : (rest.drop s).length ≤ n := by
            simp only [List.length_drop]
            simp at hl
            omega
          exact ih (rest.drop s) hlen c (by rw [hx]; simpa using hmem)

/-- The last chunk has between 1 and `s + 1` elements. -/
theorem chunkGo_getLast_length {α : Type} (s : ℕ) :
    ∀ (n : ℕ) (l : List α), l.length ≤ n →
      ∀ c, (chunkGo l (s + 1)).getLast? = some c →
        1 ≤ c.length ∧ c.length ≤ s + 1 := by
  intro n
  induction n with
  | zero =>
    intro l hl c hc
    have : l = [] := List.eq_nil_of_length_eq_zero (by omega)
    subst this
    simp [chunkGo] at hc
  | succ n ih =>
    intro l hl c hc
    cases l with
    | nil => simp [chunkGo] at hc
    | cons a rest =>
      rw [chunkGo] at hc
      rcases hx : chunkGo (rest.drop s) (s + 1) with _ | ⟨c0, cs⟩
      · rw [hx] at hc
        simp only [List.getLast?_singleton, Option.some_inj] at hc
        subst hc
        simp only [List.length_take, List.length_cons]
        omega
      · rw [hx] at hc
        rw [List.getLast?_cons_cons] at hc
        have hlen : (rest.drop s).length ≤ n := by
          simp only [List.length_drop]
          simp at hl
          omega
        exact ih (rest.drop s) hlen c (by rw [hx]; exact hc)

/-- C10: for every array and every positive integer size, `chunk` splits
the array into consecutive sub-arrays whose concatenation is the original
array; every sub-array except possibly the last has length exactly `size`,
the last has length between 1 and `size`, and the empty array yields the
empty chunk list. -/
theorem chunk_spec {α : Type} (arr : List α) (size : ℤ) (hs : 0 < size) :
    ∃ cs, chunk arr size = .ok cs ∧ cs.flatten = arr ∧
      (∀ c ∈ cs.dropLast, c.length = size.toNat) ∧
      (∀ c, cs.getLast? = some c → 1 ≤ c.length ∧ c.length ≤ size.toNat) ∧
      (arr = [] → cs = []) := by
  obtain ⟨s, hsn⟩ : ∃ s, size.toNat = s + 1 := ⟨size.toNat - 1, by omega⟩
  refine ⟨chunkGo arr size.toNat, ?_, ?_, ?_, ?_, ?_⟩
  · unfold chunk
    rw [if_neg (by omega)]
  · rw [hsn]
    exact chunkGo_flatten s arr.length arr le_rfl
  · rw [hsn]
    exact chunkGo_dropLast_length s arr.length arr le_rfl
  · rw [hsn]
    exact chunkGo_getLast_length s arr.length arr le_rfl
  · intro h
    subst h
    rw [hsn]
    simp [chunkGo]

/-- C10 witness: chunking a five-element list with size 2. -/
theorem chunk_spec_witness :
    ∃ cs, chunk [1, 2, 3, 4, 5] (2 : ℤ) = .ok cs ∧ cs.flatten = [1, 2, 3, 4, 5] ∧
      (∀ c ∈ cs.dropLast, c.length = (2 : ℤ).toNat) ∧
      (∀ c, cs.getLast? = some c → 1 ≤ c.length ∧ c.length ≤ (2 : ℤ).toNat) ∧
      ([1, 2, 3, 4, 5] = ([] : List ℕ) → cs = []) :=
  chunk_spec [1, 2, 3, 4, 5] 2 (by norm_num)

/-- C5: `"4111111111111111"` is a Luhn-valid visa and
`"4111111111111112"` a Luhn-invalid visa; every input whose stripped
digit string has length outside 13–19 yields `{valid: false, type: null}`;
and for every input of valid length, the reported type is exactly the
first-match classification over the digit string (a function defined
without the Luhn checksum) while the valid flag is exactly the Luhn
verdict — each component depends only on its own computation. -/
theorem isValidCreditCard_spec :
    isValidCreditCard "4111111111111111" = ⟨true, some "visa"⟩ ∧
    isValidCreditCard "4111111111111112" = ⟨false, some "visa"⟩ ∧
    (∀ s : String,
      (stripNonDigits s).length < 13 ∨ 19 < (stripNonDigits s).length →
      isValidCreditCard s = ⟨false, none⟩) ∧
    (∀ s : String, 13 ≤ (stripNonDigits s).length → (stripNonDigits s).length ≤ 19 →
      (isValidCreditCard s).type = cardTypeOf (stripNonDigits s) ∧
      (isValidCreditCard s).valid
        = decide (luhnSum (stripNonDigits s).reverse false % 10 = 0)) := by
  refine ⟨by decide, by decide, ?_, ?_⟩
  · intro s h
    unfold isValidCreditCard
    dsimp only
    rw [if_pos (by simp only [Bool.or_eq_true, decide_eq_true_eq]; omega)]
  · intro s h1 h2
    unfold isValidCreditCard
    dsimp only
    rw [if_neg (by simp only [Bool.or_eq_true, decide_eq_true_eq]; omega)]
    exact ⟨rfl, rfl⟩

/-- C5 witness: the length guard at a too-short input and the
classification equation at the sixteen-digit visa number. -/
theorem isValidCreditCard_spec_witness :
    isValidCreditCard "12" = ⟨false, none⟩ ∧
    (isValidCreditCard "4111111111111111").type
      = cardTypeOf (stripNonDigits "4111111111111111") :=
  ⟨isValidCreditCard_spec.2.2.1 "12" (Or.inl (by decide)),
   (isValidCreditCard_spec.2.2.2 "4111111111111111" (by decide) (by decide)).1⟩

/-- C3: every finite value below 1000 in magnitude renders as its plain
decimal string with no suffix, and every finite value of magnitude at
least `1e12` renders with the "T" suffix — the largest-first scan selects
the top tier, never K, M or B. -/
theorem shortenNumber_small_tera :
    (∀ (q : ℚ) (d : ℕ), |q| < 1000 →
      shortenNumber (.fin q) d = .ok (ratToString q)) ∧
    (∀ (q : ℚ) (d : ℕ), (10 : ℚ) ^ 12 ≤ |q| →
      shortenNumber (.fin q) d =
        .ok ((if q < 0 then "-" else "") ++
          ratToString (jsToFixedNum (|q| / 10 ^ 12) d) ++ "T")) := by
  constructor
  · intro q d h
    unfold shortenNumber
    dsimp only
    rw [if_pos h]
  · intro q d h
    have h1000 : ¬(|q| < 1000) := by
      push_neg
      calc (1000 : ℚ) ≤ 10 ^ 12 := by norm_num
        _ ≤ |q| := h
    unfold shortenNumber
    dsimp only
    rw [if_neg h1000]
    simp only [suffixUnits]
    rw [List.find?_cons_of_pos _ (by simp only [ge_iff_le, decide_eq_true_eq]; exact h)]

/-- C3 witness: the plain rendering of 500 and the "T"-suffixed rendering
of 2e12. -/
theorem shortenNumber_small_tera_witness :
    shortenNumber (.fin 500) 1 = .ok (ratToString 500) ∧
    shortenNumber (.fin (2 * 10 ^ 12)) 1 =
      .ok ((if (2 * 10 ^ 12 : ℚ) < 0 then "-" else "") ++
        ratToString (jsToFixedNum (|(2 * 10 ^ 12 : ℚ)| / 10 ^ 12) 1) ++ "T") :=
  ⟨shortenNumber_small_tera.1 500 1 (by rw [abs_of_nonneg (by norm_num)]; norm_num),
   shortenNumber_small_tera.2 (2 * 10 ^ 12) 1
     (by rw [abs_of_nonneg (by norm_num)]; norm_num)⟩

/-- A decimal digit survives the ISBN strip: it is neither a hyphen nor
whitespace. -/
theorem isbn_digit_kept (c : Char) (h : c.isDigit = true) :
    (!(c = '-' || c.isWhitespace)) = true := by
  by_cases h1 : c = '-'
  · subst h1
    simp at h
  · by_cases h2 : c.isWhitespace = true
    · simp only [Char.isWhitespace, Bool.or_eq_true, decide_eq_true_eq] at h2
      rcases h2 with ((rfl | rfl) | rfl) | rfl <;> simp at h
    · simp [h1, h2]

/-- Stripping hyphens and whitespace is the identity on a string of nine
digits followed by an admissible check character. -/
theorem stripIsbn_digits (ds : List Char) (hdig : ∀ x ∈ ds, x.isDigit = true)
    (c : Char) (hc : c ∈ isbnCheckChars) :
    stripIsbn (String.mk (ds ++ [c])) = ds ++ [c] := by
  show (ds ++ [c]).filter _ = ds ++ [c]
  rw [List.filter_append]
  have h1 : ds.filter (fun x => !(x = '-' || x.isWhitespace)) = ds :=
    List.filter_eq_self.mpr (fun a ha => isbn_digit_kept a (hdig a ha))
  have h2 : [c].filter (fun x => !(x = '-' || x.isWhitespace)) = [c] :=
    List.filter_eq_self.mpr (fun a ha => by
      rw [List.mem_singleton.mp ha]
      fin_cases hc <;> decide)
  rw [h1, h2]

/-- The ISBN-10 weighted sum of an all-digit list is defined (no NaN). -/
theorem isbn10sum_total (l : List Char) (hdig : ∀ x ∈ l, x.isDigit = true) :
    ∀ w : ℕ, ∃ s, isbn10sum l w = some s := by
  induction l with
  | nil => intro w; exact ⟨0, rfl⟩
  | cons c rest ih =>
    intro w
    obtain ⟨s, hs⟩ := ih (fun x hx => hdig x (List.mem_cons_of_mem c hx)) (w - 1)
    refine ⟨(c.toNat - 48) * w + s, ?_⟩
    rw [isbn10sum]
    rw [show charDigitVal c = some (c.toNat - 48) from
      by rw [charDigitVal, if_pos (hdig c (List.mem_cons_self c rest))]]
    rw [hs]

/-- Every admissible check character has a defined check value of at most
10. -/
theorem isbnCheckVal_mem (c : Char) (hc : c ∈ isbnCheckChars) :
    ∃ v, isbnCheckVal c = some v ∧ v ≤ 10 := by
  fin_cases hc <;> exact ⟨_, rfl, by decide⟩

/-- The check value is injective on the admissible check characters. -/
theorem isbnCheckVal_injOn (c c' : Char) (hc : c ∈ isbnCheckChars)
    (hc' : c' ∈ isbnCheckChars) (hne : c ≠ c') (v v' : ℕ)
    (hv : isbnCheckVal c = some v) (hv' : isbnCheckVal c' = some v') :
    v ≠ v' := by
  fin_cases hc <;> fin_cases hc' <;> simp_all [isbnCheckVal, charDigitVal] <;> omega

/-- C6: for every ten-character string of nine digits plus an admissible
check character (digit or 'X') that `isValidISBN` accepts, replacing the
check character by any different admissible character makes `isValidISBN`
reject: the mod-11 weighted checksum detects every single-error change of
the check digit. -/
theorem isbn10_check_digit_detection (ds : List Char) (c c' : Char)
    (hlen : ds.length = 9) (hdig : ∀ x ∈ ds, x.isDigit = true)
    (hc : c ∈ isbnCheckChars) (hc' : c' ∈ isbnCheckChars) (hne : c ≠ c')
    (hvalid : (isValidISBN (String.mk (ds ++ [c]))).valid = true) :
    (isValidISBN (String.mk (ds ++ [c']))).valid = false := by
  have hstrip := stripIsbn_digits ds hdig c hc
  have hstrip' := stripIsbn_digits ds hdig c' hc'
  have hl : (ds ++ [c]).length = 10 := by simp [hlen]
  have hl' : (ds ++ [c']).length = 10 := by simp [hlen]
  have htake : (ds ++ [c]).take 9 = ds := by
    rw [← hlen]
    exact List.take_left ds [c]
  have htake' : (ds ++ [c']).take 9 = ds := by
    rw [← hlen]
    exact List.take_left ds [c']
  have hget : (ds ++ [c]).getD 9 ' ' = c := by
    rw [List.getD_eq_getElem?_getD, List.getElem?_append_right (by omega), hlen]
    simp
  have hget' : (ds ++ [c']).getD 9 ' ' = c' := by
    rw [List.getD_eq_getElem?_getD, List.getElem?_append_right (by omega), hlen]
    simp
  obtain ⟨S, hS⟩ := isbn10sum_total ds hdig 10
  obtain ⟨v, hv, hv10⟩ := isbnCheckVal_mem c hc
  obtain ⟨v', hv', hv10'⟩ := isbnCheckVal_mem c' hc'
  have hvne : v ≠ v' := isbnCheckVal_injOn c c' hc hc' hne v v' hv hv'
  unfold isValidISBN at hvalid ⊢
  rw [hstrip] at hvalid
  rw [hstrip']
  rw [if_pos hl] at hvalid
  rw [if_pos hl']
  rw [htake, hget, hS, hv] at hvalid
  rw [htake', hget', hS, hv']
  simp only [CheckResult.valid, decide_eq_true_eq] at hvalid
  simp only [CheckResult.valid, decide_eq_false_iff_not]
  omega

/-- C6 witness: the valid ISBN-10 030640615-2 rejects the altered check
digit '3'. -/
theorem isbn10_check_digit_detection_witness :
    (isValidISBN (String.mk
      (['0', '3', '0', '6', '4', '0', '6', '1', '5'] ++ ['3']))).valid = false :=
  isbn10_check_digit_detection ['0', '3', '0', '6', '4', '0', '6', '1', '5'] '2' '3'
    (by decide) (by decide) (by decide) (by decide) (by decide) (by decide)

/-- C8: `startOf(d, 'week')` always lands on a Monday at 00:00:00.000 and
`endOf(d, 'week')` on a Sunday at 23:59:59.999; in particular a Sunday
input moves 6 days back for the start and 0 days forward for the end. -/
theorem startOf_endOf_week (ms : ℤ) :
    (∀ w, startOf ms "week" = .ok w →
      dayOfWeek w = 1 ∧ w % msPerDay = 0 ∧
      (dayOfWeek ms = 0 → w = dayStart (ms - 6 * msPerDay))) ∧
    (∀ e, endOf ms "week" = .ok e →
      dayOfWeek e = 0 ∧ e % msPerDay = msPerDay - 1 ∧
      (dayOfWeek ms = 0 → e = dayStart (ms + 0 * msPerDay) + (msPerDay - 1))) ∧
    (∃ w, startOf ms "week" = .ok w) ∧ (∃ e, endOf ms "week" = .ok e) := by
  have hs : startOf ms "week" =
      .ok (dayStart (ms - (if dayOfWeek ms = 0 then 6 else dayOfWeek ms - 1) * msPerDay)) :=
    rfl
  have he : endOf ms "week" =
      .ok (dayStart (ms + (if dayOfWeek ms = 0 then 0 else 7 - dayOfWeek ms) * msPerDay)
        + (msPerDay - 1)) := rfl
  refine ⟨?_, ?_, ⟨_, hs⟩, ⟨_, he⟩⟩
  · intro w hw
    rw [hs, Except.ok.injEq] at hw
    subst hw
    refine ⟨?_, ?_, ?_⟩
    · simp only [dayOfWeek, dayStart, dayNumber, msPerDay]
      split_ifs with h0 <;> simp only [dayOfWeek, dayNumber, msPerDay] at h0 <;> omega
    · simp only [dayStart, dayNumber, msPerDay]
      split_ifs <;> omega
    · intro h0
      rw [if_pos h0]
  · intro e het
    rw [he, Except.ok.injEq] at het
    subst het
    refine ⟨?_, ?_, ?_⟩
    · simp only [dayOfWeek, dayStart, dayNumber, msPerDay]
      split_ifs with h0 <;> simp only [dayOfWeek, dayNumber, msPerDay] at h0 <;> omega
    · simp only [dayStart, dayNumber, msPerDay]
      split_ifs <;> omega
    · intro h0
      rw [if_pos h0]

/-- C8 witness: 2024-01-07T12:00Z is a Sunday; its week starts on Monday
2024-01-01T00:00:00.000Z and ends on Sunday 2024-01-07T23:59:59.999Z. -/
theorem startOf_endOf_week_witness :
    dayOfWeek 1704067200000 = 1 ∧ (1704067200000 : ℤ) % msPerDay = 0 ∧
    (1704067200000 : ℤ) = dayStart (1704628800000 - 6 * msPerDay) ∧
    dayOfWeek 1704671999999 = 0 ∧ (1704671999999 : ℤ) % msPerDay = msPerDay - 1 :=
  ⟨((startOf_endOf_week 1704628800000).1 1704067200000 (by decide)).1,
   ((startOf_endOf_week 1704628800000).1 1704067200000 (by decide)).2.1,
   ((startOf_endOf_week 1704628800000).1 1704067200000 (by decide)).2.2 (by decide),
   ((startOf_endOf_week 1704628800000).2.1 1704671999999 (by decide)).1,
   ((startOf_endOf_week 1704628800000).2.1 1704671999999 (by decide)).2.1⟩

end Friendlyfy
